/-
Verification of the opportunity-validation pipeline of the build-signals
repository (scripts/validate_opportunities.py), as a shallow embedding in
Lean 4.  Python dict-shaped records are modelled as structures; keys that
the code reads with `.get(key, default)` and that may be absent (or None,
which the code coerces with `or 0` / `or ""`) are modelled as `Option`
fields, with `none` standing for absent-or-None.  Remote calls are
modelled as oracle inputs describing the outcome of each request, so the
exception-handling control flow becomes explicit case analysis.
-/
import Mathlib

namespace BuildSignals

/-! ### Python string primitives

Python `str` methods are modelled on the character list of a `String`
(Lean's byte-position-based `String.trim`/`String.toLower` do not
reduce in the kernel, so concrete witnesses could not be evaluated
through them). -/

/-- Python `str.strip()`: remove leading and trailing whitespace. -/
def pyStrip (s : String) : String :=
  String.mk
    (((s.toList.dropWhile Char.isWhitespace).reverse.dropWhile
      Char.isWhitespace).reverse)

/-- Python `str.lower()`. -/
def pyLower (s : String) : String := String.mk (s.toList.map Char.toLower)

/-- Python slicing `s[:n]`. -/
def pySlice (n : Nat) (s : String) : String := String.mk (s.toList.take n)

/-- Python `str.replace(a, b)` for one-character `a`, `b`. -/
def pyReplaceChar (a b : Char) (s : String) : String :=
  String.mk (s.toList.map fun c => if c = a then b else c)

/-- Python `c in s` for a single character. -/
def pyContainsChar (c : Char) (s : String) : Bool := s.toList.contains c

/-- Splitter for Python `str.split(",")`-style single-char splits. -/
def pySplitChar (c : Char) (s : String) : List String :=
  (s.toList.splitOn c).map String.mk

/-- A scored signal record (input of the validator, produced externally).
Mirrors the keys read by validate_opportunities.py.  `score`,
`descendants` and `comments` are `Option Int`: `none` models an absent
key or a Python `None` value (both are coerced to `0` by the code's
`... or 0`). -/
structure Signal where
  id : String
  source : String
  title : String
  url : String
  score : Option Int
  descendants : Option Int
  comments : Option Int
  one_line_hook : Option String
  key_insight : String
  relevance_score : Option Int
  content_potential : Option Int
deriving Repr, DecidableEq

/-- `signal.get("score", 0) or 0` in `_hn_strength`. -/
def Signal.scoreVal (s : Signal) : Int := s.score.getD 0

/-- `signal.get("descendants", signal.get("comments", 0)) or 0`:
the `descendants` key wins when present, else `comments`, else 0. -/
def Signal.commentsVal (s : Signal) : Int :=
  (s.descendants.orElse fun _ => s.comments).getD 0

/-- `_hn_strength(signal)` from validate_opportunities.py:
`(score >= 30) or (comments >= 20) or (score >= 15 and comments >= 10)`. -/
def hn_strength (s : Signal) : Bool :=
  (s.scoreVal ≥ 30) || (s.commentsVal ≥ 20) ||
    (s.scoreVal ≥ 15 && s.commentsVal ≥ 10)

/-- `compute_confidence(signal, gt_support, ph_support, gh_support)`:
counts the origin signal's strength plus the three supporting verdicts,
then maps the count to a confidence label. -/
def compute_confidence (s : Signal) (gt_support ph_support gh_support : Bool) :
    String × Nat :=
  let hn_support := hn_strength s
  let total_sources : Nat :=
    (if hn_support then 1 else 0) + ((if gt_support then 1 else 0) +
      (if ph_support then 1 else 0) + (if gh_support then 1 else 0))
  let confidence :=
    if total_sources ≥ 3 then "high"
    else if total_sources = 2 then "medium"
    else "low"
  (confidence, total_sources)

/-- Convenience constructor: a signal with the given score and
comments (`descendants` key), all other fields empty. -/
def mkSignal (score comments : Int) : Signal :=
  { id := "", source := "hn_ask", title := "", url := ""
    score := some score, descendants := some comments, comments := none
    one_line_hook := none, key_insight := ""
    relevance_score := none, content_potential := none }

/-- A summarizer's output: `{"summary": ..., "supporting": ...}`. -/
structure SummaryVerdict where
  summary : String
  supporting : Bool
deriving Repr, DecidableEq

/-! ### Google Trends evidence and summarizer -/

/-- One per-query row of Trends evidence:
`{"query": kw, "interest": current, "yoy_growth": yoy}`.  `yoy_growth` is
a Python float; it is modelled as a rational number. -/
structure TrendResult where
  query : String
  interest : Int
  yoy_growth : Rat
deriving Repr, DecidableEq

/-- The Trends evidence dict: status tag plus per-query rows. -/
structure TrendsEvidence where
  status : String
  results : List TrendResult
deriving Repr, DecidableEq

/-- Strict comparison of the Python sort key
`(r.get("interest", 0), r.get("yoy_growth", 0))` (lexicographic). -/
def trendKeyGt (a b : TrendResult) : Bool :=
  a.interest > b.interest ||
    (a.interest = b.interest && a.yoy_growth > b.yoy_growth)

/-- `max(results, key=..., default=None)`: first maximal element. -/
def maxByTrendKey : List TrendResult → Option TrendResult
  | [] => none
  | x :: xs => some (xs.foldl (fun acc r => if trendKeyGt r acc then r else acc) x)

/-- The per-row support test in `summarize_trends`:
`(interest >= 10 and yoy > 0) or interest >= 20`. -/
def trendSupportCond (r : TrendResult) : Bool :=
  (r.interest ≥ 10 && r.yoy_growth > 0) || r.interest ≥ 20

/-- Nearest integer to a rational (models `%.0f` formatting; Python's
half-even tie-break is approximated by half-up, which no claim's
verdict depends on). -/
def ratRound (q : Rat) : Int := Int.fdiv (2 * q.num + (q.den : Int)) (2 * (q.den : Int))

/-- `f"{yoy:+.0f}"`: signed integer rendering of the YoY percentage. -/
def fmtSigned (q : Rat) : String :=
  let n := ratRound q
  (if n < 0 then "" else "+") ++ toString n

/-- `summarize_trends(evidence)` from validate_opportunities.py. -/
def summarize_trends (evidence : TrendsEvidence) : SummaryVerdict :=
  if evidence.status ≠ "ok" || evidence.results.isEmpty then
    ⟨"No Google Trends data available.", false⟩
  else
    match maxByTrendKey evidence.results with
    | none => ⟨"Search demand unclear (no usable Trends signal).", false⟩
    | some top =>
      if !(evidence.results.filter trendSupportCond).isEmpty then
        ⟨"Search demand present. Top query '" ++ top.query ++ "' shows interest " ++
          toString top.interest ++ " and YoY " ++ fmtSigned top.yoy_growth ++ "%.", true⟩
      else
        ⟨"Search demand weak or flat. Top query '" ++ top.query ++ "' has interest " ++
          toString top.interest ++ " and YoY " ++ fmtSigned top.yoy_growth ++ "%.", false⟩

/-! ### GitHub evidence and summarizer -/

/-- One repository record as built by `execute_github_search`. -/
structure Repo where
  name : String
  stars : Int
  description : String
  url : String
  language : Option String
  updated : String
deriving Repr, DecidableEq

/-- One per-query entry of the GitHub evidence `results` list: a
successful search, a 403-tagged entry, or an error-tagged entry. -/
inductive GHEntry
  | success (query : String) (total_count : Int) (repos : List Repo)
  | rateLimited (query : String)
  | error (query : String) (reason : String)
deriving Repr, DecidableEq

/-- `r.get("repos", [])`: the 403/error entries carry an empty list. -/
def GHEntry.repos : GHEntry → List Repo
  | .success _ _ rs => rs
  | .rateLimited _ => []
  | .error _ _ => []

/-- The GitHub evidence dict: status tag plus per-query entries. -/
structure GithubEvidence where
  status : String
  results : List GHEntry
deriving Repr, DecidableEq

/-- `total_repos = sum(len(r.get("repos", [])) for r in results)` —
counts every returned repo row, duplicates included. -/
def totalRepos (evidence : GithubEvidence) : Nat :=
  (evidence.results.map fun r => r.repos.length).sum

/-- The dedup loop of `summarize_github`, with the accumulated list
explicit: keep the first occurrence of each repo name, skipping repos
with an empty name.  The Python `seen` set always equals the set of
names in the accumulated list. -/
def dedupByNameAux (acc : List Repo) : List Repo → List Repo
  | [] => acc
  | repo :: rs =>
    if repo.name ≠ "" && (acc.all fun r => r.name ≠ repo.name)
    then dedupByNameAux (acc ++ [repo]) rs
    else dedupByNameAux acc rs

/-- `summarize_github`'s dedup of the concatenated repo lists. -/
def dedupByName (rs : List Repo) : List Repo := dedupByNameAux [] rs

/-- One step of a stable descending insertion sort on star count,
modelling `list.sort(key=stars, reverse=True)`. -/
def insertByStarsDesc (repo : Repo) : List Repo → List Repo
  | [] => [repo]
  | x :: xs =>
    if repo.stars ≥ x.stars then repo :: x :: xs
    else x :: insertByStarsDesc repo xs

/-- Stable descending sort on star count. -/
def sortByStarsDesc (rs : List Repo) : List Repo :=
  rs.foldr insertByStarsDesc []

/-- Digit grouping for `f"{stars:,}"`; the fuel is the digit count. -/
def groupRevAux : Nat → List Char → List Char
  | _, [] => []
  | 0, ds => ds
  | fuel + 1, ds =>
    if ds.length ≤ 3 then ds else ds.take 3 ++ ',' :: groupRevAux fuel (ds.drop 3)

/-- `f"{n:,}"`: integer with thousands separators. -/
def intWithCommas (n : Int) : String :=
  let s := toString n.natAbs
  (if n < 0 then "-" else "") ++ String.mk (groupRevAux s.length s.toList.reverse).reverse

/-- One repo's detail line in the GitHub summary. -/
def repoDetail (repo : Repo) : String :=
  let desc := pyStrip repo.description
  let lang := repo.language.getD ""
  let base := repo.name ++ " (" ++ intWithCommas repo.stars ++ " stars"
  let withLang := if lang ≠ "" then base ++ ", " ++ lang else base
  let closed := withLang ++ ")"
  if desc ≠ "" then closed ++ " - " ++ desc else closed

/-- The assembled GitHub summary string. -/
def githubSummaryText (all_repos : List Repo) (numQueries : Nat) : String :=
  String.intercalate " | "
    (("Found " ++ toString all_repos.length ++ " unique repos across " ++
      toString numQueries ++ " queries.") :: (all_repos.take 3).map repoDetail)

/-- `summarize_github(evidence)` from validate_opportunities.py.  Note
the support test compares `total_repos` (duplicates included) with 3,
while the summary text reports the deduplicated count. -/
def summarize_github (evidence : GithubEvidence) : SummaryVerdict :=
  let results := evidence.results
  let total_repos := totalRepos evidence
  if evidence.status ≠ "ok" || results.isEmpty then
    ⟨"No GitHub data available.", false⟩
  else if total_repos = 0 then
    ⟨"No relevant repos found on GitHub search.", false⟩
  else
    let all_repos := sortByStarsDesc (dedupByName (List.flatten (results.map GHEntry.repos)))
    let support :=
      (match all_repos.head? with
       | some top => decide (top.stars ≥ 50)
       | none => false) || decide (total_repos ≥ 3)
    ⟨githubSummaryText all_repos results.length, support⟩

/-! ### Product Hunt evidence and summarizer -/

/-- One product record as built by `execute_producthunt_search`. -/
structure Product where
  name : String
  tagline : String
  votes : Int
  url : String
  created_at : String
deriving Repr, DecidableEq

/-- One per-query entry of the Product Hunt evidence `results` list.
A success entry carries `total` (which for local-fallback entries is
the full match count, while `products` is truncated to 5). -/
inductive PHEntry
  | success (query : String) (total : Nat) (products : List Product)
  | error (query : String) (reason : String)
deriving Repr, DecidableEq

/-- `r.get("products", [])`. -/
def PHEntry.products : PHEntry → List Product
  | .success _ _ ps => ps
  | .error _ _ => []

/-- `r.get("total", 0)`. -/
def PHEntry.total : PHEntry → Nat
  | .success _ t _ => t
  | .error _ _ => 0

/-- The Product Hunt evidence dict. `sourceTag` models the optional
`"source": "local_fallback"` key. -/
structure PHEvidence where
  status : String
  results : List PHEntry
  sourceTag : Option String
deriving Repr, DecidableEq

/-- `total_products = sum(len(r.get("products", [])) for r in results)`. -/
def totalProducts (evidence : PHEvidence) : Nat :=
  (evidence.results.map fun r => r.products.length).sum

/-- The top-product scan of `summarize_producthunt`: first product with
a strictly maximal vote count. -/
def topProduct (ps : List Product) : Option Product :=
  ps.foldl (fun acc p =>
    match acc with
    | none => some p
    | some t => if p.votes > t.votes then some p else acc) none

/-- `summarize_producthunt(evidence)` from validate_opportunities.py. -/
def summarize_producthunt (evidence : PHEvidence) : SummaryVerdict :=
  let results := evidence.results
  let total_products := totalProducts evidence
  if evidence.status ≠ "ok" || results.isEmpty then
    ⟨"No Product Hunt data available.", false⟩
  else if total_products = 0 then
    ⟨"No relevant products found on Product Hunt.", false⟩
  else
    match topProduct (List.flatten (results.map PHEntry.products)) with
    | some top =>
      ⟨"Found " ++ toString total_products ++ " related products. Top: " ++
        top.name ++ " (" ++ toString top.votes ++ " votes).", true⟩
    | none =>
      ⟨"Found " ++ toString total_products ++ " related products on Product Hunt.", true⟩

/-! ### Classification normalization -/

/-- The fixed 5-value opportunity taxonomy (`OPPORTUNITY_TYPES`). -/
def OPPORTUNITY_TYPES : List String :=
  ["developer-tooling", "demographic-market-gap", "infrastructure-need",
   "workflow-inefficiency", "emerging-category"]

/-- A duck-typed value fed to `_coerce_list`: a list of strings, a bare
string, or anything else. -/
inductive CoerceInput
  | list (items : List String)
  | str (s : String)
  | other
deriving Repr, DecidableEq

/-- `_coerce_list(value)` from validate_opportunities.py. -/
def _coerce_list : CoerceInput → List String
  | .list items => (items.map pyStrip).filter (· ≠ "")
  | .str s => (((pySplitChar ',' (pyReplaceChar '/' ',' s))).map pyStrip).filter (· ≠ "")
  | .other => []

/-- `t.strip().lower().replace("_", "-")` applied to one raw type. -/
def normalizeTypeToken (t : String) : String :=
  pyReplaceChar '_' '-' (pyLower (pyStrip t))

/-- The accumulation loop of `_normalize_opportunity_types`: normalize
each token, keep it only when it is in the taxonomy and not yet kept
(membership in the Python `normalized` list is checked directly). -/
def normalizeTypesAux (acc : List String) : List String → List String
  | [] => acc
  | t :: ts =>
    let t := normalizeTypeToken t
    if t ∈ OPPORTUNITY_TYPES ∧ t ∉ acc then normalizeTypesAux (acc ++ [t]) ts
    else normalizeTypesAux acc ts

/-- `_normalize_opportunity_types(raw_types)`. -/
def _normalize_opportunity_types (raw_types : CoerceInput) : List String :=
  (normalizeTypesAux [] (_coerce_list raw_types)).take 2

/-- The dedup loop of `_normalize_queries` on one value list, with the
accumulated list explicit: strip each value, skip empties and exact
(case-sensitive) repeats; the Python `seen` set always equals the set
of kept values. -/
def dedupQueriesAux (acc : List String) : List String → List String
  | [] => acc
  | v :: vs =>
    let v := pyStrip v
    if v = "" ∨ v ∈ acc then dedupQueriesAux acc vs
    else dedupQueriesAux (acc ++ [v]) vs

/-- The dedup pass of `_normalize_queries` on one value list. -/
def dedupQueries (vals : List String) : List String := dedupQueriesAux [] vals

/-- Specification of duplicate removal following the spec's wording
("duplicates are removed preserving first-seen order"), to be compared
with the code's `dedupQueries` loop: keep each value's first occurrence,
deleting its later repeats from the rest. -/
def firstSeenKeep : List String → List String
  | [] => []
  | v :: vs => v :: (firstSeenKeep vs).filter fun w => decide (w ≠ v)

/-- The raw `queries` object handed to `_normalize_queries`:
`(queries or {}).get(key, [])` for the three fixed keys. -/
structure RawQueries where
  google_trends : CoerceInput
  producthunt : CoerceInput
  github : CoerceInput
deriving Repr, DecidableEq

/-- Normalized per-source query lists. -/
structure Queries where
  google_trends : List String
  producthunt : List String
  github : List String
deriving Repr, DecidableEq

/-- `_normalize_queries(queries)`: coerce, dedup, truncate to 5,
independently for each of the three fixed keys. -/
def _normalize_queries (queries : RawQueries) : Queries :=
  { google_trends := (dedupQueries (_coerce_list queries.google_trends)).take 5
    producthunt := (dedupQueries (_coerce_list queries.producthunt)).take 5
    github := (dedupQueries (_coerce_list queries.github)).take 5 }

/-- `s.strip('"')`: strip leading and trailing double quotes. -/
def stripQuotes (s : String) : String :=
  String.mk (((s.toList.dropWhile (· = '"')).reverse.dropWhile (· = '"')).reverse)

/-- `_fallback_opportunity_title(signal)`. -/
def _fallback_opportunity_title (sig : Signal) : String :=
  let hook := stripQuotes (pyStrip (sig.one_line_hook.getD ""))
  if hook ≠ "" then pySlice 80 hook
  else
    let title := pyStrip sig.title
    if title ≠ "" then pySlice 80 title else "Untitled opportunity"

/-- A normalized classification entry, as stored in `classifications`. -/
structure Classification where
  opportunity_types : List String
  opportunity_title : String
  queries : Queries
deriving Repr, DecidableEq

/-! ### Per-signal assembly (step 3 and step 5 of `main`) -/

/-- Trends evidence after the summary/supporting keys are attached. -/
structure TrendsEvidenceOut where
  base : TrendsEvidence
  summary : String
  supporting : Bool
deriving Repr, DecidableEq

/-- GitHub evidence after the summary/supporting keys are attached. -/
structure GithubEvidenceOut where
  base : GithubEvidence
  summary : String
  supporting : Bool
deriving Repr, DecidableEq

/-- Product Hunt evidence after the summary/supporting keys are attached. -/
structure PHEvidenceOut where
  base : PHEvidence
  summary : String
  supporting : Bool
deriving Repr, DecidableEq

/-- The per-signal entry appended to `evidence_list` in step 3 of
`main`.  The nested `supporting_sources` dict is flattened into the
four `supporting_*` fields. -/
structure EvidenceBundle where
  opportunity_type : String
  opportunity_title : String
  queries : Queries
  evidence_google_trends : TrendsEvidenceOut
  evidence_github : GithubEvidenceOut
  evidence_producthunt : PHEvidenceOut
  summary_trends : String
  summary_products : String
  summary_github : String
  confidence : String
  sources_confirming : Nat
  supporting_hn : Bool
  supporting_trends : Bool
  supporting_producthunt : Bool
  supporting_github : Bool
deriving Repr, DecidableEq

/-- The body of the step-3 loop of `main` for one signal: summarize the
three evidence dicts, attach summary/supporting, aggregate confidence.
`cls = none` models a signal the classifier omitted
(`classifications[i] or {}`). -/
def buildEvidenceBundle (sig : Signal) (cls : Option Classification)
    (gtEv : TrendsEvidence) (ghEv : GithubEvidence) (phEv : PHEvidence) :
    EvidenceBundle :=
  let opp_types := (cls.map (·.opportunity_types)).getD []
  let queries := (cls.map (·.queries)).getD ⟨[], [], []⟩
  let opp_type :=
    if opp_types.isEmpty then "unknown" else String.intercalate " / " opp_types
  let opp_title0 := (cls.map (·.opportunity_title)).getD ""
  let opp_title :=
    if opp_title0 = "" then _fallback_opportunity_title sig else opp_title0
  let gt_summary := summarize_trends gtEv
  let gh_summary := summarize_github ghEv
  let ph_summary := summarize_producthunt phEv
  let cc := compute_confidence sig gt_summary.supporting ph_summary.supporting
    gh_summary.supporting
  { opportunity_type := opp_type
    opportunity_title := opp_title
    queries := queries
    evidence_google_trends := ⟨gtEv, gt_summary.summary, gt_summary.supporting⟩
    evidence_github := ⟨ghEv, gh_summary.summary, gh_summary.supporting⟩
    evidence_producthunt := ⟨phEv, ph_summary.summary, ph_summary.supporting⟩
    summary_trends := gt_summary.summary
    summary_products := ph_summary.summary
    summary_github := gh_summary.summary
    confidence := cc.1
    sources_confirming := cc.2
    supporting_hn := hn_strength sig
    supporting_trends := gt_summary.supporting
    supporting_producthunt := ph_summary.supporting
    supporting_github := gh_summary.supporting }

/-- `str.title()` restricted to the single lowercase words it is applied
to here (`"low"`, `"medium"`, `"high"`): capitalize the first letter. -/
def pyTitleWord (s : String) : String :=
  match s.toList with
  | [] => ""
  | c :: cs => String.mk (c.toUpper :: cs)

/-- `fallback_narrative(signal, evidence)` from
validate_opportunities.py. -/
def fallback_narrative (sig : Signal) (evidence : EvidenceBundle) : String :=
  let hook := sig.one_line_hook.getD ""
  let score := sig.score.getD 0
  let comments := (sig.descendants.orElse fun _ => sig.comments).getD 0
  let confidence := pyLower (if evidence.confidence = "" then "low" else evidence.confidence)
  let sources := evidence.sources_confirming
  let first :=
    if hook ≠ "" then "HN signal highlights: " ++ hook
    else "HN signal shows interest (" ++ toString score ++ " upvotes, " ++
      toString comments ++ " comments)."
  String.intercalate " "
    [first, evidence.summary_trends, evidence.summary_products,
     evidence.summary_github,
     "Assessment: " ++ toString sources ++ " sources confirming, " ++
       pyTitleWord confidence ++ " confidence opportunity."]

/-- The persisted ValidatedOpportunity record assembled in step 5 of
`main` (one JSONL row of validated_opportunities.jsonl). -/
structure ValidatedRecord where
  id : String
  signal_id : String
  signal_title : String
  signal_url : String
  signal_source : String
  signal_score : Int
  signal_comments : Int
  relevance_score : Option Int
  content_potential : Option Int
  opportunity_type : String
  queries : Queries
  evidence_google_trends : TrendsEvidenceOut
  evidence_producthunt : PHEvidenceOut
  evidence_github : GithubEvidenceOut
  sources_confirming : Nat
  confidence : String
  narrative : String
  one_line_hook : String
  key_insight : String
  validated_at : String
  model_used : String
deriving Repr, DecidableEq

/-- The step-5 per-signal record assembly of `main`.  `narr` is the AI
narrative for this signal, `none` when the synthesizer omitted it. -/
def assemble_record (sig : Signal) (ev : EvidenceBundle)
    (narr : Option String) (now_iso : String) : ValidatedRecord :=
  let source := sig.source
  let source_id := sig.id
  let signal_id :=
    if pyContainsChar ':' source_id then source_id else source ++ ":" ++ source_id
  let narrative_text0 := pyStrip (narr.getD "")
  let narrative_text :=
    if narrative_text0 = "" then fallback_narrative sig ev else narrative_text0
  { id := "val:" ++ signal_id
    signal_id := signal_id
    signal_title := ev.opportunity_title
    signal_url := sig.url
    signal_source := source
    signal_score := sig.score.getD 0
    signal_comments := (sig.descendants.orElse fun _ => sig.comments).getD 0
    relevance_score := sig.relevance_score
    content_potential := sig.content_potential
    opportunity_type := ev.opportunity_type
    queries := ev.queries
    evidence_google_trends := ev.evidence_google_trends
    evidence_producthunt := ev.evidence_producthunt
    evidence_github := ev.evidence_github
    sources_confirming := ev.sources_confirming
    confidence := ev.confidence
    narrative := narrative_text
    one_line_hook := sig.one_line_hook.getD ""
    key_insight := sig.key_insight
    validated_at := now_iso
    model_used := "claude-sonnet-4-20250514" }

/-- Steps 3+5 composed for one signal: the record the validator emits
for `sig` given its classification, raw evidence and AI narrative. -/
def validated_record_of (sig : Signal) (cls : Option Classification)
    (gtEv : TrendsEvidence) (ghEv : GithubEvidence) (phEv : PHEvidence)
    (narr : Option String) (now_iso : String) : ValidatedRecord :=
  assemble_record sig (buildEvidenceBundle sig cls gtEv ghEv phEv) narr now_iso

/-! ### Evidence executors

Remote requests are modelled by oracle inputs: each query (or, for
pytrends, the single batch) is paired with the outcome its request
would produce — an HTTP response or a raised exception.  The Python
`try/except` blocks become case analysis on these outcomes. -/

/-- Outcome of one GitHub search request: an HTTP response (status
code, parsed `total_count` and items) or a raised exception. -/
inductive GHQueryOutcome
  | http (statusCode : Nat) (total_count : Int) (items : List Repo)
  | raised (message : String)
deriving Repr, DecidableEq

/-- Does this outcome hit the `status_code == 403` break? -/
def GHQueryOutcome.is403 : GHQueryOutcome → Bool
  | .http statusCode _ _ => statusCode = 403
  | .raised _ => false

/-- The entry one query/outcome pair contributes to `results`
(when the loop reaches it). -/
def githubEntryOf : String × GHQueryOutcome → GHEntry
  | (q, .http statusCode total_count items) =>
    if statusCode = 403 then .rateLimited q
    else if 400 ≤ statusCode then .error q ("HTTP " ++ toString statusCode)
    else .success q total_count (items.take 5)
  | (q, .raised message) => .error q message

/-- The per-query loop of `execute_github_search`: a 403 appends a
rate_limited entry and breaks; an HTTP error status raises via
`raise_for_status` and is caught as an error entry (loop continues);
success appends the first 5 items. -/
def githubLoop : List (String × GHQueryOutcome) → List GHEntry
  | [] => []
  | (q, o) :: rest =>
    match o with
    | .http statusCode total_count items =>
      if statusCode = 403 then [.rateLimited q]
      else if 400 ≤ statusCode then
        .error q ("HTTP " ++ toString statusCode) :: githubLoop rest
      else .success q total_count (items.take 5) :: githubLoop rest
    | .raised message => .error q message :: githubLoop rest

/-- `execute_github_search(queries, token)`: empty token ⇒ `skipped`
(Python `if not token`); otherwise the loop runs over `queries[:5]`
and the top-level status is always `"ok"`. -/
def execute_github_search (token : String)
    (queryOutcomes : List (String × GHQueryOutcome)) : GithubEvidence :=
  if token = "" then ⟨"skipped", []⟩
  else ⟨"ok", githubLoop (queryOutcomes.take 5)⟩

/-- `str.find(c)`: index of the first occurrence, `none` for Python -1. -/
def findCharIdx (c : Char) : List Char → Option Nat
  | [] => none
  | x :: xs => if x = c then some 0 else (findCharIdx c xs).map (· + 1)

/-- `str.rfind(c)`: index of the last occurrence, `none` for Python -1. -/
def rfindCharIdx (c : Char) (cs : List Char) : Option Nat :=
  (findCharIdx c cs.reverse).map fun i => cs.length - 1 - i

/-- Drop leading JSON whitespace. -/
def skipSpaces : List Char → List Char
  | [] => []
  | c :: cs => if c.isWhitespace then skipSpaces cs else c :: cs

/-- Digits to a natural number. -/
def digitsToNat (ds : List Char) : Nat :=
  ds.foldl (fun n c => 10 * n + (c.toNat - '0'.toNat)) 0

/-- Parse a (possibly negative) JSON integer prefix. -/
def parseIntPrefix (cs : List Char) : Option (Int × List Char) :=
  match cs with
  | '-' :: rest =>
    match List.span Char.isDigit rest with
    | ([], _) => none
    | (ds, rest2) => some (-(digitsToNat ds : Int), rest2)
  | _ =>
    match List.span Char.isDigit cs with
    | ([], _) => none
    | (ds, rest2) => some ((digitsToNat ds : Int), rest2)

/-- Parse a comma-separated sequence of integers; the fuel bounds the
number of items. -/
def parseItemsAux : Nat → List Char → Option (List Int × List Char)
  | 0, _ => none
  | fuel + 1, cs =>
    match parseIntPrefix (skipSpaces cs) with
    | none => none
    | some (n, rest) =>
      match skipSpaces rest with
      | ',' :: rest2 =>
        (parseItemsAux fuel rest2).map fun p => (n :: p.1, p.2)
      | rest2 => some ([n], rest2)

/-- `json.loads` on the integer-array fragment: a full-string parse of
`[ n1, n2, ... ]` (possibly empty), rejecting trailing garbage. -/
def parseArrayChars (cs : List Char) : Option (List Int) :=
  match skipSpaces cs with
  | '[' :: rest =>
    match skipSpaces rest with
    | ']' :: rest2 => if (skipSpaces rest2).isEmpty then some [] else none
    | rest1 =>
      match parseItemsAux (rest1.length + 1) rest1 with
      | some (ns, r) =>
        match skipSpaces r with
        | ']' :: rest2 => if (skipSpaces rest2).isEmpty then some ns else none
        | _ => none
      | none => none
  | _ => none

/-- The shared extract-and-parse of one response attempt, on chars:
`text.startswith("[")` is the head test; otherwise the slice from the
first `[` to the last `]` (inclusive) is parsed when nonempty. -/
def extractParseChars (text : List Char) : Option (List Int) :=
  if text.head? = some '[' then parseArrayChars text
  else
    match findCharIdx '[' text, rfindCharIdx ']' text with
    | some start, some lastIdx =>
      if start ≤ lastIdx then
        parseArrayChars ((text.drop start).take (lastIdx + 1 - start))
      else none
    | some _, none => none
    | none, _ => none

/-- The extract-and-parse step on the stripped response text. -/
def extract_and_parse (text : String) : Option (List Int) :=
  extractParseChars text.toList

/-- `json.loads` on a string, integer-array fragment. -/
def parseIntArray (s : String) : Option (List Int) := parseArrayChars s.toList

/-! ### `main` control flow (entry gate) -/

/-- Python truthiness of an optional string: `not x`. -/
def optFalsy : Option String → Bool
  | none => true
  | some s => s = ""

/-- Coarse trace of one `main` run: exit code, whether
scored_signals.jsonl was loaded, whether validated_opportunities.jsonl
was written, whether the missing-API-key warning was printed. -/
structure RunTrace where
  exitCode : Nat
  signalsLoaded : Bool
  outputWritten : Bool
  warnedMissingKey : Bool
deriving Repr, DecidableEq

/-- The control-flow skeleton of `main` after argument parsing: the
API-key gate (`sys.exit(0)` with a warning), the input-dir check
(`sys.exit(1)`), signal loading, the empty-signals exit, the dry-run
return, and otherwise the pipeline, which writes the output file. -/
def main_control_flow (anthropicApiKey : Option String) (dryRun : Bool)
    (inputDirExists : Bool) (scoredSignals : List Signal) : RunTrace :=
  if optFalsy anthropicApiKey && !dryRun then
    { exitCode := 0, signalsLoaded := false, outputWritten := false,
      warnedMissingKey := true }
  else if !inputDirExists then
    { exitCode := 1, signalsLoaded := false, outputWritten := false,
      warnedMissingKey := false }
  else if scoredSignals.isEmpty then
    { exitCode := 0, signalsLoaded := true, outputWritten := false,
      warnedMissingKey := false }
  else if dryRun then
    { exitCode := 0, signalsLoaded := true, outputWritten := false,
      warnedMissingKey := false }
  else
    { exitCode := 0, signalsLoaded := true, outputWritten := true,
      warnedMissingKey := false }

/-! ## Helper lemmas -/

/-- The source count returned by `compute_confidence`, regrouped as
evidence-count plus origin-strength count. -/
theorem compute_confidence_snd (s : Signal) (a b c : Bool) :
    (compute_confidence s a b c).2 =
      ((if a then 1 else 0) + (if b then 1 else 0) + (if c then 1 else 0)) +
        (if hn_strength s then 1 else 0) := by
  simp only [compute_confidence]
  cases hn_strength s <;> cases a <;> cases b <;> cases c <;> rfl

/-- The threshold mapping takes one of the three fixed label values. -/
theorem label_cases (n : ℕ) :
    (if n ≥ 3 then "high" else if n = 2 then "medium" else "low") = "high" ∨
      (if n ≥ 3 then "high" else if n = 2 then "medium" else "low") = "medium" ∨
      (if n ≥ 3 then "high" else if n = 2 then "medium" else "low") = "low" := by
  by_cases h : n ≥ 3
  · exact Or.inl (if_pos h)
  · by_cases h2 : n = 2
    · exact Or.inr (Or.inl (by rw [if_neg h, if_pos h2]))
    · exact Or.inr (Or.inr (by rw [if_neg h, if_neg h2]))

/-- The confidence label is always one of the three fixed values. -/
theorem compute_confidence_fst_cases (s : Signal) (a b c : Bool) :
    (compute_confidence s a b c).1 = "high" ∨
      (compute_confidence s a b c).1 = "medium" ∨
      (compute_confidence s a b c).1 = "low" :=
  label_cases _

/-! ## Claims -/

/-- Origin-signal-strength recomputed from a persisted record's own
`signal_score` / `signal_comments` fields, as the spec's invariant
prescribes (the `or 0` coercion of `_hn_strength` applied to the
persisted values). -/
def recordOriginStrength (r : ValidatedRecord) : Bool :=
  (r.signal_score ≥ 30) || (r.signal_comments ≥ 20) ||
    (r.signal_score ≥ 15 && r.signal_comments ≥ 10)

/-- C1: for every assembled ValidatedOpportunity record — whatever the
classification, raw evidence and AI narrative (present or absent, so
in particular for fallback narratives) — the persisted
`sources_confirming` equals the number of true values among the three
persisted evidence `supporting` flags plus 1 when origin-signal-strength
recomputed from the record's `signal_score`/`signal_comments` is true. -/
theorem sources_confirming_invariant :
    ∀ (sig : Signal) (cls : Option Classification) (gtEv : TrendsEvidence)
      (ghEv : GithubEvidence) (phEv : PHEvidence) (narr : Option String)
      (now_iso : String),
      (validated_record_of sig cls gtEv ghEv phEv narr now_iso).sources_confirming =
        ((if (validated_record_of sig cls gtEv ghEv phEv narr now_iso).evidence_google_trends.supporting
            then 1 else 0) +
         (if (validated_record_of sig cls gtEv ghEv phEv narr now_iso).evidence_producthunt.supporting
            then 1 else 0) +
         (if (validated_record_of sig cls gtEv ghEv phEv narr now_iso).evidence_github.supporting
            then 1 else 0)) +
        (if recordOriginStrength (validated_record_of sig cls gtEv ghEv phEv narr now_iso)
            then 1 else 0) := by
  intro sig cls gtEv ghEv phEv narr now_iso
  have h := compute_confidence_snd sig (summarize_trends gtEv).supporting
    (summarize_producthunt phEv).supporting (summarize_github ghEv).supporting
  simpa [validated_record_of, assemble_record, buildEvidenceBundle,
    recordOriginStrength, hn_strength, Signal.scoreVal, Signal.commentsVal] using h

/-- C2: `compute_confidence` is a pure function returning the count of
origin-signal-strength plus the three supporting booleans, labelled
high/medium/low at the 3/2/≤1 thresholds; origin-signal-strength holds
at (30,0), (0,20) and (15,10) but not at (14,9). -/
theorem compute_confidence_pure_spec :
    (∀ (s : Signal) (gt ph gh : Bool),
      (compute_confidence s gt ph gh).2 =
        (if hn_strength s then 1 else 0) + ((if gt then 1 else 0) +
          (if ph then 1 else 0) + (if gh then 1 else 0)) ∧
      (compute_confidence s gt ph gh).1 =
        (if 3 ≤ (compute_confidence s gt ph gh).2 then "high"
         else if (compute_confidence s gt ph gh).2 = 2 then "medium"
         else "low")) ∧
    (∀ s : Signal, hn_strength s =
      ((s.scoreVal ≥ 30) || (s.commentsVal ≥ 20) ||
        (s.scoreVal ≥ 15 && s.commentsVal ≥ 10))) ∧
    hn_strength (mkSignal 30 0) = true ∧ hn_strength (mkSignal 0 20) = true ∧
    hn_strength (mkSignal 15 10) = true ∧ hn_strength (mkSignal 14 9) = false := by
  refine ⟨fun s gt ph gh => ⟨rfl, ?_⟩, fun s => rfl, by decide, by decide,
    by decide, by decide⟩
  rfl

/-- C10: with `ANTHROPIC_API_KEY` unset and no `--dry-run`, `main`
warns and exits with status 0 before loading any signals, writing no
validated-opportunities output — regardless of the input directory or
the signals that would have been loaded. -/
theorem missing_api_key_exits_zero :
    ∀ (inputDirExists : Bool) (scoredSignals : List Signal),
      main_control_flow none false inputDirExists scoredSignals =
        { exitCode := 0, signalsLoaded := false, outputWritten := false,
          warnedMissingKey := true } := by
  intro inputDirExists scoredSignals
  rfl

/-- C8: when the AI narrative is absent or strips to empty, the emitted
narrative is the deterministic fallback: the hook sentence (or, with no
hook, the score/comments sentence), then the three evidence summaries
in the fixed order trends, products, github, then the exact sentence
`Assessment: N sources confirming, {Confidence} confidence opportunity.`
restating the record's own precomputed `sources_confirming` and
(title-cased) confidence label.  Being a pure function of the signal
and evidence, it is identical across repeated runs on unchanged data. -/
theorem fallback_narrative_structure :
    ∀ (sig : Signal) (cls : Option Classification) (gtEv : TrendsEvidence)
      (ghEv : GithubEvidence) (phEv : PHEvidence) (narr : Option String)
      (now_iso : String),
      pyStrip (narr.getD "") = "" →
      (validated_record_of sig cls gtEv ghEv phEv narr now_iso).narrative =
        (if sig.one_line_hook.getD "" ≠ "" then
          "HN signal highlights: " ++ sig.one_line_hook.getD ""
        else
          "HN signal shows interest (" ++ toString (sig.score.getD 0) ++
            " upvotes, " ++
            toString ((sig.descendants.orElse fun _ => sig.comments).getD 0) ++
            " comments).") ++
        " " ++ (summarize_trends gtEv).summary ++
        " " ++ (summarize_producthunt phEv).summary ++
        " " ++ (summarize_github ghEv).summary ++ " " ++
        ("Assessment: " ++
          toString (validated_record_of sig cls gtEv ghEv phEv narr now_iso).sources_confirming ++
          " sources confirming, " ++
          pyTitleWord (validated_record_of sig cls gtEv ghEv phEv narr now_iso).confidence ++
          " confidence opportunity.") := by
  intro sig cls gtEv ghEv phEv narr now_iso hempty
  rcases compute_confidence_fst_cases sig (summarize_trends gtEv).supporting
      (summarize_producthunt phEv).supporting (summarize_github ghEv).supporting
    with h | h | h <;>
  · simp only [validated_record_of, assemble_record, buildEvidenceBundle,
      fallback_narrative]
    rw [if_pos hempty]
    simp only [fallback_narrative, h]
    rfl

set_option maxRecDepth 10000 in
/-- Witness for C8 at a concrete signal with the evidence bundle all
skipped and the AI narrative absent. -/
theorem fallback_narrative_structure_witness :
    (validated_record_of (mkSignal 50 5) none ⟨"skipped", []⟩ ⟨"skipped", []⟩
      ⟨"skipped", [], none⟩ none "t").narrative =
      "HN signal shows interest (50 upvotes, 5 comments). No Google Trends data available. No Product Hunt data available. No GitHub data available. Assessment: 1 sources confirming, Low confidence opportunity." := by
  have h := fallback_narrative_structure (mkSignal 50 5) none ⟨"skipped", []⟩
    ⟨"skipped", []⟩ ⟨"skipped", [], none⟩ none "t" (by decide)
  rw [h]
  decide

/-- Filtering keeps nothing exactly when no element satisfies the
predicate. -/
theorem filter_isEmpty_eq_not_any {α : Type} (p : α → Bool) (l : List α) :
    (l.filter p).isEmpty = !(l.any p) := by
  induction l with
  | nil => rfl
  | cons x xs ih => by_cases hx : p x <;> simp [List.filter, List.any, hx, ih]

/-- The supportive Trends summary never collides with the no-data text
(different leading words). -/
theorem presentSummary_ne_nodata (a b c : String) :
    "Search demand present. Top query '" ++ a ++ "' shows interest " ++ b ++
      " and YoY " ++ c ++ "%." ≠ "No Google Trends data available." := by
  intro h
  have h2 := congrArg String.data h
  simp only [String.data_append] at h2
  simp at h2

/-- The unsupportive Trends summary never collides with the no-data
text (different leading words). -/
theorem weakSummary_ne_nodata (a b c : String) :
    "Search demand weak or flat. Top query '" ++ a ++ "' has interest " ++ b ++
      " and YoY " ++ c ++ "%." ≠ "No Google Trends data available." := by
  intro h
  have h2 := congrArg String.data h
  simp only [String.data_append] at h2
  simp at h2

/-- C4 counterexample: the claimed "supporting iff some result has
(interest ≥ 10 and yoy > 0) or interest ≥ 20" fails on a rate_limited
evidence object: its single row satisfies the condition (interest 20),
yet the summarizer returns supporting = false because the status is not
"ok". -/
theorem summarize_trends_claim_counterexample :
    trendSupportCond ⟨"q", 20, 0⟩ = true ∧
    (summarize_trends ⟨"rate_limited", [⟨"q", 20, 0⟩]⟩).supporting = false := by
  decide

/-- C4 (amended): supporting is true iff the evidence status is "ok"
AND some result satisfies `(interest ≥ 10 and yoy > 0) or
interest ≥ 20`; an empty ok result list yields the no-data summary with
supporting = false; a nonempty ok result list never yields the no-data
wording; and the three spec examples hold. -/
theorem summarize_trends_spec :
    (∀ evidence : TrendsEvidence,
      (summarize_trends evidence).supporting =
        (decide (evidence.status = "ok") && evidence.results.any trendSupportCond)) ∧
    summarize_trends ⟨"ok", []⟩ = ⟨"No Google Trends data available.", false⟩ ∧
    (∀ evidence : TrendsEvidence, evidence.status = "ok" → evidence.results ≠ [] →
      (summarize_trends evidence).summary ≠ "No Google Trends data available.") ∧
    (summarize_trends ⟨"ok", [⟨"q", 20, -5⟩]⟩).supporting = true ∧
    (summarize_trends ⟨"ok", [⟨"q", 10, 5⟩]⟩).supporting = true ∧
    (summarize_trends ⟨"ok", [⟨"q", 10, 0⟩]⟩).supporting = false := by
  refine ⟨?_, by decide, ?_, by decide, by decide, by decide⟩
  · rintro ⟨st, results⟩
    by_cases hs : st = "ok"
    · subst hs
      cases results with
      | nil => decide
      | cons x xs =>
        simp only [summarize_trends, maxByTrendKey, filter_isEmpty_eq_not_any]
        cases hany : (x :: xs).any trendSupportCond <;> simp [hany]
    · simp [summarize_trends, hs]
  · rintro ⟨st, results⟩ hst hne
    subst hst
    cases results with
    | nil => exact absurd rfl hne
    | cons x xs =>
      simp only [summarize_trends, maxByTrendKey]
      rw [if_neg (by simp)]
      split
      · exact presentSummary_ne_nodata _ _ _
      · exact weakSummary_ne_nodata _ _ _

/-- Witness for C4: the hypotheses of the wording clause discharged at
a concrete ok-but-unsupportive evidence object. -/
theorem summarize_trends_spec_witness :
    (summarize_trends ⟨"ok", [⟨"q", 10, 0⟩]⟩).summary ≠
      "No Google Trends data available." :=
  summarize_trends_spec.2.2.1 ⟨"ok", [⟨"q", 10, 0⟩]⟩ rfl (by decide)

/-- The accumulation loop of `_normalize_opportunity_types` only
appends normalized taxonomy values originating from its input. -/
theorem normalizeTypesAux_spec :
    ∀ (ts acc : List String),
      ∃ u, normalizeTypesAux acc ts = acc ++ u ∧
        ∀ x ∈ u, x ∈ OPPORTUNITY_TYPES ∧ ∃ s ∈ ts, normalizeTypeToken s = x := by
  intro ts
  induction ts with
  | nil => exact fun acc => ⟨[], by simp [normalizeTypesAux]⟩
  | cons t ts ih =>
    intro acc
    simp only [normalizeTypesAux]
    by_cases h : normalizeTypeToken t ∈ OPPORTUNITY_TYPES ∧ normalizeTypeToken t ∉ acc
    · rw [if_pos h]
      obtain ⟨u, hu, hprop⟩ := ih (acc ++ [normalizeTypeToken t])
      refine ⟨normalizeTypeToken t :: u, by rw [hu]; simp, ?_⟩
      intro x hx
      rcases List.mem_cons.mp hx with hx | hx
      · exact hx ▸ ⟨h.1, t, List.mem_cons_self t ts, rfl⟩
      · obtain ⟨hmem, s, hs, hsx⟩ := hprop x hx
        exact ⟨hmem, s, List.mem_cons_of_mem t hs, hsx⟩
    · rw [if_neg h]
      obtain ⟨u, hu, hprop⟩ := ih acc
      refine ⟨u, hu, fun x hx => ?_⟩
      obtain ⟨hmem, s, hs, hsx⟩ := hprop x hx
      exact ⟨hmem, s, List.mem_cons_of_mem t hs, hsx⟩

/-- The dedup loop of `_normalize_queries` appends, beyond any
duplicate-free accumulator, a duplicate-free subsequence of the
stripped values containing every nonempty stripped value. -/
theorem dedupQueriesAux_spec :
    ∀ (vs acc : List String), acc.Nodup →
      ∃ t, dedupQueriesAux acc vs = acc ++ t ∧
        t.Sublist (vs.map pyStrip) ∧ (acc ++ t).Nodup ∧
        (∀ v ∈ t, v ≠ "") ∧
        (∀ v ∈ vs, pyStrip v ≠ "" → pyStrip v ∈ acc ∨ pyStrip v ∈ t) := by
  intro vs
  induction vs with
  | nil =>
    intro acc hacc
    exact ⟨[], by simp [dedupQueriesAux], by simp, by simpa, by simp, by simp⟩
  | cons v vs ih =>
    intro acc hacc
    simp only [dedupQueriesAux]
    by_cases h : pyStrip v = "" ∨ pyStrip v ∈ acc
    · rw [if_pos h]
      obtain ⟨t, ht, hsub, hnd, hne, hmem⟩ := ih acc hacc
      refine ⟨t, ht, hsub.cons _, hnd, hne, ?_⟩
      intro w hw hwne
      rcases List.mem_cons.mp hw with hw | hw
      · subst hw
        rcases h with h | h
        · exact absurd h hwne
        · exact Or.inl h
      · exact hmem w hw hwne
    · rw [if_neg h]
      push_neg at h
      obtain ⟨h1, h2⟩ := h
      have hacc2 : (acc ++ [pyStrip v]).Nodup := by
        simp [List.nodup_append, hacc, h2]
      obtain ⟨t, ht, hsub, hnd, hne, hmem⟩ := ih (acc ++ [pyStrip v]) hacc2
      refine ⟨pyStrip v :: t, ?_, hsub.cons₂ _, ?_, ?_, ?_⟩
      · rw [ht]; simp
      · have hre : acc ++ pyStrip v :: t = (acc ++ [pyStrip v]) ++ t := by simp
        rw [hre]; exact hnd
      · intro w hw
        rcases List.mem_cons.mp hw with hw | hw
        · exact hw ▸ h1
        · exact hne w hw
      · intro w hw hwne
        rcases List.mem_cons.mp hw with hw | hw
        · subst hw; exact Or.inr (List.mem_cons_self _ _)
        · rcases hmem w hw hwne with hm | hm
          · rcases List.mem_append.mp hm with hm | hm
            · exact Or.inl hm
            · simp only [List.mem_singleton] at hm
              exact Or.inr (hm ▸ List.mem_cons_self _ _)
          · exact Or.inr (List.mem_cons_of_mem _ hm)

/-- Properties of the full dedup pass. -/
theorem dedupQueries_spec (vals : List String) :
    (dedupQueries vals).Sublist (vals.map pyStrip) ∧ (dedupQueries vals).Nodup ∧
      ∀ v ∈ vals, pyStrip v ≠ "" → pyStrip v ∈ dedupQueries vals := by
  obtain ⟨t, ht, hsub, hnd, _, hmem⟩ := dedupQueriesAux_spec vals [] List.nodup_nil
  have he : dedupQueries vals = t := by simpa [dedupQueries] using ht
  refine ⟨he ▸ hsub, he ▸ (by simpa using hnd), fun v hv hne => ?_⟩
  rcases hmem v hv hne with hm | hm
  · exact absurd hm (List.not_mem_nil _)
  · exact he ▸ hm

/-- Removing a value's repeats commutes with first-seen dedup. -/
theorem firstSeenKeep_filter (a : String) (l : List String) :
    firstSeenKeep (l.filter fun w => decide (w ≠ a)) =
      (firstSeenKeep l).filter fun w => decide (w ≠ a) := by
  induction l with
  | nil => rfl
  | cons v vs ih =>
    by_cases hv : v = a
    · subst hv
      simp only [List.filter_cons]
      rw [show (decide (v ≠ v)) = false from by simp]
      simp only [Bool.false_eq_true, if_false]
      rw [ih, firstSeenKeep]
      simp only [List.filter_cons]
      rw [show (decide (v ≠ v)) = false from by simp]
      simp only [Bool.false_eq_true, if_false, List.filter_filter]
      apply List.filter_congr
      intro w _
      simp
    · simp only [List.filter_cons]
      rw [show (decide (v ≠ a)) = true from by simp [hv]]
      simp only [if_true]
      rw [firstSeenKeep, firstSeenKeep, ih]
      simp only [List.filter_cons]
      rw [show (decide (v ≠ a)) = true from by simp [hv]]
      simp only [if_true, List.filter_filter]
      congr 1
      apply List.filter_congr
      intro w _
      exact Bool.and_comm _ _

/-- The dedup loop of `_normalize_queries` computes, beyond its
accumulator, exactly the first-seen dedup of the stripped nonempty
values not already seen. -/
theorem dedupQueriesAux_eq_firstSeen :
    ∀ (vs acc : List String),
      dedupQueriesAux acc vs =
        acc ++ firstSeenKeep
          (((vs.map pyStrip).filter fun v => decide (v ≠ "")).filter
            fun w => decide (w ∉ acc)) := by
  intro vs
  induction vs with
  | nil => intro acc; simp [dedupQueriesAux, firstSeenKeep]
  | cons v vs ih =>
    intro acc
    simp only [dedupQueriesAux, List.map_cons, List.filter_cons]
    by_cases h0 : pyStrip v = ""
    · rw [if_pos (Or.inl h0)]
      rw [show (decide (pyStrip v ≠ "")) = false from by simp [h0]]
      simp only [Bool.false_eq_true, if_false]
      exact ih acc
    · by_cases hmem : pyStrip v ∈ acc
      · rw [if_pos (Or.inr hmem)]
        rw [show (decide (pyStrip v ≠ "")) = true from by simp [h0]]
        simp only [if_true, List.filter_cons]
        rw [show (decide (pyStrip v ∉ acc)) = false from by simp [hmem]]
        simp only [Bool.false_eq_true, if_false]
        exact ih acc
      · rw [if_neg (by push_neg; exact ⟨h0, hmem⟩)]
        rw [show (decide (pyStrip v ≠ "")) = true from by simp [h0]]
        simp only [if_true, List.filter_cons]
        rw [show (decide (pyStrip v ∉ acc)) = true from by simp [hmem]]
        simp only [if_true]
        rw [ih (acc ++ [pyStrip v])]
        have hsplit :
            ((vs.map pyStrip).filter fun u => decide (u ≠ "")).filter
              (fun w => decide (w ∉ acc ++ [pyStrip v])) =
            (((vs.map pyStrip).filter fun u => decide (u ≠ "")).filter
              (fun w => decide (w ∉ acc))).filter
              (fun w => decide (w ≠ pyStrip v)) := by
          simp only [List.filter_filter]
          apply List.filter_congr
          intro w _
          by_cases h1 : w ∈ acc <;> by_cases h2 : w = pyStrip v <;>
            by_cases h3 : w = "" <;> simp [h1, h2, h3, List.mem_append]
        rw [hsplit, firstSeenKeep_filter]
        rw [firstSeenKeep]
        simp

/-- The code's dedup pass is exactly the first-seen dedup of the
stripped, nonempty values. -/
theorem dedupQueries_eq_firstSeen (vals : List String) :
    dedupQueries vals =
      firstSeenKeep ((vals.map pyStrip).filter fun v => decide (v ≠ "")) := by
  have h := dedupQueriesAux_eq_firstSeen vals []
  simpa [dedupQueries] using h

/-- C5 counterexample: query dedup is case-sensitive, not
case-insensitive as claimed — `"Foo"` and `"foo"` are
case-insensitive duplicates yet both survive normalization. -/
theorem normalize_queries_case_counterexample :
    (_normalize_queries ⟨.list ["Foo", "foo"], .list [], .list []⟩).google_trends =
      ["Foo", "foo"] ∧
    pyLower "Foo" = pyLower "foo" := by
  decide

/-- C5 (amended): normalization keeps at most 2 opportunity types, all
within the fixed taxonomy and each the normalization of some input
token; each per-source query list equals the first-seen dedup
(`firstSeenKeep`) of the stripped nonempty values — so duplicates equal
after stripping leading/trailing whitespace (exact, case-sensitive
comparison) are removed preserving first-seen order — truncated to at
most 5 entries; consequently each list is a duplicate-free subsequence
of the stripped inputs, of length at most 5, containing every nonempty
stripped value before truncation. -/
theorem normalize_classification_spec :
    (∀ raw : CoerceInput,
      (_normalize_opportunity_types raw).length ≤ 2 ∧
      ∀ x ∈ _normalize_opportunity_types raw,
        x ∈ OPPORTUNITY_TYPES ∧ ∃ s ∈ _coerce_list raw, normalizeTypeToken s = x) ∧
    (∀ queries : RawQueries,
      (_normalize_queries queries).google_trends =
        (firstSeenKeep (((_coerce_list queries.google_trends).map pyStrip).filter
          fun v => decide (v ≠ ""))).take 5 ∧
      (_normalize_queries queries).producthunt =
        (firstSeenKeep (((_coerce_list queries.producthunt).map pyStrip).filter
          fun v => decide (v ≠ ""))).take 5 ∧
      (_normalize_queries queries).github =
        (firstSeenKeep (((_coerce_list queries.github).map pyStrip).filter
          fun v => decide (v ≠ ""))).take 5) ∧
    (∀ queries : RawQueries,
      ((_normalize_queries queries).google_trends.length ≤ 5 ∧
        (_normalize_queries queries).google_trends.Nodup ∧
        (_normalize_queries queries).google_trends.Sublist
          ((_coerce_list queries.google_trends).map pyStrip)) ∧
      ((_normalize_queries queries).producthunt.length ≤ 5 ∧
        (_normalize_queries queries).producthunt.Nodup ∧
        (_normalize_queries queries).producthunt.Sublist
          ((_coerce_list queries.producthunt).map pyStrip)) ∧
      ((_normalize_queries queries).github.length ≤ 5 ∧
        (_normalize_queries queries).github.Nodup ∧
        (_normalize_queries queries).github.Sublist
          ((_coerce_list queries.github).map pyStrip))) ∧
    (∀ vals : List String, ∀ v ∈ vals, pyStrip v ≠ "" →
      pyStrip v ∈ dedupQueries vals) := by
  refine ⟨?_, ?_, ?_, fun vals => (dedupQueries_spec vals).2.2⟩
  · intro raw
    obtain ⟨u, hu, hprop⟩ := normalizeTypesAux_spec (_coerce_list raw) []
    constructor
    · exact List.length_take_le 2 _
    · intro x hx
      have hx2 : x ∈ normalizeTypesAux [] (_coerce_list raw) :=
        List.mem_of_mem_take hx
      rw [hu] at hx2
      simpa using hprop x (by simpa using hx2)
  · intro queries
    exact ⟨congrArg (List.take 5) (dedupQueries_eq_firstSeen _),
      congrArg (List.take 5) (dedupQueries_eq_firstSeen _),
      congrArg (List.take 5) (dedupQueries_eq_firstSeen _)⟩
  · intro queries
    refine ⟨?_, ?_, ?_⟩ <;>
    · obtain ⟨hsub, hnd, _⟩ := dedupQueries_spec (_coerce_list _)
      exact ⟨List.length_take_le 5 _, hnd.sublist (List.take_sublist 5 _),
        (List.take_sublist 5 _).trans hsub⟩

/-- Witness for C5: the take-2/taxonomy clause discharged at a concrete
raw classification, the first-seen clause at a concrete value list, and
the functional characterization evaluated on an input with an actual
duplicate — the first occurrence wins. -/
theorem normalize_classification_spec_witness :
    ("developer-tooling" ∈ OPPORTUNITY_TYPES ∧
      ∃ s ∈ _coerce_list (.list ["Developer_Tooling"]),
        normalizeTypeToken s = "developer-tooling") ∧
    pyStrip " a " ∈ dedupQueries ["x", " a "] ∧
    (_normalize_queries ⟨.list ["a", "b", "a"], .list [], .list []⟩).google_trends
      = ["a", "b"] := by
  refine ⟨(normalize_classification_spec.1 (.list ["Developer_Tooling"])).2
      "developer-tooling" (by decide),
    normalize_classification_spec.2.2.2 ["x", " a "] " a " (by decide) (by decide),
    ?_⟩
  have h := (normalize_classification_spec.2.1
    ⟨.list ["a", "b", "a"], .list [], .list []⟩).1
  rw [h]
  decide

/-- Insertion preserves membership. -/
theorem mem_insertByStarsDesc (r : Repo) (l : List Repo) (a : Repo) :
    a ∈ insertByStarsDesc r l ↔ a = r ∨ a ∈ l := by
  induction l with
  | nil => simp [insertByStarsDesc]
  | cons x xs ih =>
    simp only [insertByStarsDesc]
    split
    · simp [List.mem_cons]
    · simp [List.mem_cons, ih]; tauto

/-- Unfolding of the sort on a cons. -/
theorem sortByStarsDesc_cons (x : Repo) (xs : List Repo) :
    sortByStarsDesc (x :: xs) = insertByStarsDesc x (sortByStarsDesc xs) := rfl

/-- Sorting preserves membership. -/
theorem mem_sortByStarsDesc (l : List Repo) (a : Repo) :
    a ∈ sortByStarsDesc l ↔ a ∈ l := by
  induction l with
  | nil => simp [sortByStarsDesc]
  | cons x xs ih =>
    rw [sortByStarsDesc_cons]
    simp [mem_insertByStarsDesc, ih]

/-- Insertion preserves descending order on star counts. -/
theorem pairwise_insertByStarsDesc (r : Repo) (l : List Repo)
    (h : l.Pairwise fun a b => b.stars ≤ a.stars) :
    (insertByStarsDesc r l).Pairwise fun a b => b.stars ≤ a.stars := by
  induction l with
  | nil => simp [insertByStarsDesc]
  | cons x xs ih =>
    rcases List.pairwise_cons.mp h with ⟨hx, hxs⟩
    simp only [insertByStarsDesc]
    split
    case isTrue hge =>
      refine List.pairwise_cons.mpr ⟨?_, h⟩
      intro b hb
      rcases List.mem_cons.mp hb with rfl | hb
      · exact hge
      · exact le_trans (hx b hb) hge
    case isFalse hlt =>
      refine List.pairwise_cons.mpr ⟨?_, ih hxs⟩
      intro b hb
      rcases (mem_insertByStarsDesc r xs b).mp hb with rfl | hb
      · exact le_of_lt (lt_of_not_le hlt)
      · exact hx b hb

/-- The sorted list is descending on star counts. -/
theorem pairwise_sortByStarsDesc (l : List Repo) :
    (sortByStarsDesc l).Pairwise fun a b => b.stars ≤ a.stars := by
  induction l with
  | nil => simp [sortByStarsDesc]
  | cons x xs ih => rw [sortByStarsDesc_cons]; exact pairwise_insertByStarsDesc x _ ih

/-- The head of the sorted list bounds the star count of every element
of the unsorted list. -/
theorem head_sortByStarsDesc_max (l : List Repo) (t : Repo)
    (ht : (sortByStarsDesc l).head? = some t) :
    t ∈ l ∧ ∀ a ∈ l, a.stars ≤ t.stars := by
  cases hsl : sortByStarsDesc l with
  | nil => rw [hsl] at ht; cases ht
  | cons y ys =>
    rw [hsl] at ht
    have hyt : y = t := by injection ht
    subst hyt
    have hp := pairwise_sortByStarsDesc l
    rw [hsl] at hp
    rcases List.pairwise_cons.mp hp with ⟨hy, _⟩
    have hmem : y ∈ l := (mem_sortByStarsDesc l y).mp (hsl ▸ List.mem_cons_self y ys)
    refine ⟨hmem, fun a ha => ?_⟩
    have ha2 : a ∈ sortByStarsDesc l := (mem_sortByStarsDesc l a).mpr ha
    rw [hsl] at ha2
    rcases List.mem_cons.mp ha2 with rfl | ha2
    · exact le_refl _
    · exact hy a ha2

/-- C3 counterexample: the support threshold of 3 counts repo rows with
duplicates, not unique repositories.  One 10-star repository returned
by three different queries yields a single deduplicated repo whose top
star count is below 50, yet supporting = true — refuting the claimed
"unique repositories ≥ 3 OR top unique repo ≥ 50" iff. -/
theorem summarize_github_unique_counterexample :
    dedupByName (List.flatten
        (([GHEntry.success "q1" 1 [⟨"a/b", 10, "", "", none, ""⟩],
           GHEntry.success "q2" 1 [⟨"a/b", 10, "", "", none, ""⟩],
           GHEntry.success "q3" 1 [⟨"a/b", 10, "", "", none, ""⟩]]).map GHEntry.repos)) =
      [⟨"a/b", 10, "", "", none, ""⟩] ∧
    (summarize_github ⟨"ok",
      [GHEntry.success "q1" 1 [⟨"a/b", 10, "", "", none, ""⟩],
       GHEntry.success "q2" 1 [⟨"a/b", 10, "", "", none, ""⟩],
       GHEntry.success "q3" 1 [⟨"a/b", 10, "", "", none, ""⟩]]⟩).supporting = true := by
  decide

/-- C3 (amended): supporting is true iff the status is "ok", the
results list is nonempty, and either some deduplicated repository has
at least 50 stars (equivalently, the highest-starred unique repo does)
or the total count of returned repo rows — duplicates included — is at
least 3; the spec's examples (2 unique repos topping at 40 stars → false,
3 repos → true, 1 repo with 50 stars → true) hold as stated when each
unique repo is returned once. -/
theorem summarize_github_spec :
    (∀ evidence : GithubEvidence,
      (summarize_github evidence).supporting =
        (decide (evidence.status = "ok") && !evidence.results.isEmpty &&
          ((dedupByName (List.flatten (evidence.results.map GHEntry.repos))).any
              (fun r => decide (r.stars ≥ 50)) ||
            decide (totalRepos evidence ≥ 3)))) ∧
    (summarize_github ⟨"ok", [GHEntry.success "q1" 2
      [⟨"a/b", 40, "", "", none, ""⟩, ⟨"c/d", 5, "", "", none, ""⟩]]⟩).supporting
      = false ∧
    (summarize_github ⟨"ok", [GHEntry.success "q1" 3
      [⟨"a/b", 1, "", "", none, ""⟩, ⟨"c/d", 2, "", "", none, ""⟩,
       ⟨"e/f", 3, "", "", none, ""⟩]]⟩).supporting = true ∧
    (summarize_github ⟨"ok", [GHEntry.success "q1" 1
      [⟨"a/b", 50, "", "", none, ""⟩]]⟩).supporting = true := by
  refine ⟨?_, by decide, by decide, by decide⟩
  rintro ⟨st, results⟩
  by_cases hs : st = "ok"
  · subst hs
    cases results with
    | nil => decide
    | cons e es =>
      simp only [summarize_github]
      rw [if_neg (by simp)]
      by_cases h0 : totalRepos ⟨"ok", e :: es⟩ = 0
      · rw [if_pos h0]
        have hflat : List.flatten ((e :: es).map GHEntry.repos) = [] := by
          have hall := (List.sum_eq_zero_iff).mp h0
          rw [List.flatten_eq_nil_iff]
          intro l hl
          rcases List.mem_map.mp hl with ⟨entry, hentry, rfl⟩
          have := hall entry.repos.length
            (List.mem_map.mpr ⟨entry, hentry, rfl⟩)
          exact List.eq_nil_of_length_eq_zero this
        simp only [List.map_cons, List.flatten_cons] at hflat
        simp [hflat, h0, dedupByName, dedupByNameAux]
      · rw [if_neg h0]
        have htot : decide (totalRepos ⟨"ok", e :: es⟩ ≥ 3) =
            decide (totalRepos (⟨"ok", e :: es⟩ : GithubEvidence) ≥ 3) := rfl
        cases hd : dedupByName (List.flatten ((e :: es).map GHEntry.repos)) with
        | nil =>
          simp only [hd]
          simp [sortByStarsDesc]
        | cons d ds =>
          simp only [hd]
          cases hsort : sortByStarsDesc (d :: ds) with
          | nil =>
            exfalso
            have : d ∈ sortByStarsDesc (d :: ds) :=
              (mem_sortByStarsDesc _ d).mpr (List.mem_cons_self d ds)
            rw [hsort] at this
            exact List.not_mem_nil d this
          | cons t ts =>
            have hmax := head_sortByStarsDesc_max (d :: ds) t
              (by rw [hsort]; rfl)
            simp only [hsort, List.head?_cons, Option.some.injEq]
            by_cases h50 : t.stars ≥ 50
            · have hany : (d :: ds).any (fun r => decide (r.stars ≥ 50)) = true :=
                List.any_eq_true.mpr ⟨t, hmax.1, by simpa using h50⟩
              simp [h50, hany]
            · have hany : (d :: ds).any (fun r => decide (r.stars ≥ 50)) = false := by
                rw [List.any_eq_false]
                intro a ha
                simp only [decide_eq_true_eq]
                intro hge
                exact h50 (le_trans hge (hmax.2 a ha))
              simp [h50, hany]
  · have hd : decide (st = "ok") = false := by simp [hs]
    simp [summarize_github, hs, hd]

/-- The GitHub query loop processes a 403-free segment entry by entry,
leaving the rest of the loop unaffected. -/
theorem githubLoop_append (l₁ l₂ : List (String × GHQueryOutcome))
    (h : ∀ p ∈ l₁, p.2.is403 = false) :
    githubLoop (l₁ ++ l₂) = l₁.map githubEntryOf ++ githubLoop l₂ := by
  induction l₁ with
  | nil => simp
  | cons p ps ih =>
    obtain ⟨q, o⟩ := p
    have ho : o.is403 = false := h (q, o) (List.mem_cons_self _ _)
    have hih := ih fun p hp => h p (List.mem_cons_of_mem _ hp)
    cases o with
    | http code total items =>
      have hne : ¬ code = 403 := by
        simpa [GHQueryOutcome.is403] using ho
      by_cases h4 : 400 ≤ code <;>
        simp [githubLoop, githubEntryOf, hne, h4, hih]
    | raised message => simp [githubLoop, githubEntryOf, hih]

/-- C9: an HTTP 403 on a GitHub query tags that query rate_limited and
stops the loop, the entries of the queries processed before it are
kept, and the evidence's top-level status remains "ok" (never
"rate_limited") — so the summarizer treats the prior results as
usable data and can still return supporting = true from them, as the
concrete 60-star run shows. -/
theorem github_403_keeps_prior_results :
    (∀ (token : String) (queryOutcomes : List (String × GHQueryOutcome)),
      token ≠ "" → (execute_github_search token queryOutcomes).status = "ok") ∧
    (∀ (l₁ : List (String × GHQueryOutcome)) (q : String) (t : Int)
        (items : List Repo) (l₂ : List (String × GHQueryOutcome)),
      (∀ p ∈ l₁, p.2.is403 = false) →
      githubLoop (l₁ ++ (q, .http 403 t items) :: l₂) =
        l₁.map githubEntryOf ++ [GHEntry.rateLimited q]) ∧
    execute_github_search "tok"
        [("q1", .http 200 1 [⟨"owner/repo", 60, "", "", none, ""⟩]),
         ("q2", .http 403 0 [])] =
      ⟨"ok", [GHEntry.success "q1" 1 [⟨"owner/repo", 60, "", "", none, ""⟩],
        GHEntry.rateLimited "q2"]⟩ ∧
    (summarize_github (execute_github_search "tok"
        [("q1", .http 200 1 [⟨"owner/repo", 60, "", "", none, ""⟩]),
         ("q2", .http 403 0 [])])).supporting = true := by
  refine ⟨?_, ?_, by decide, by decide⟩
  · intro token queryOutcomes ht
    simp [execute_github_search, ht]
  · intro l₁ q t items l₂ h
    rw [githubLoop_append l₁ _ h]
    simp [githubLoop]

/-- Witness for C9: both universal clauses discharged at concrete
inputs. -/
theorem github_403_keeps_prior_results_witness :
    (execute_github_search "tok" [("q", .http 200 0 [])]).status = "ok" ∧
    githubLoop ([("q1", .http 200 2 [⟨"r", 5, "", "", none, ""⟩])] ++
        ("q2", .http 403 0 []) :: []) =
      [("q1", GHQueryOutcome.http 200 2 [⟨"r", 5, "", "", none, ""⟩])].map
          githubEntryOf ++ [GHEntry.rateLimited "q2"] :=
  ⟨github_403_keeps_prior_results.1 "tok" _ (by decide),
    github_403_keeps_prior_results.2.1 _ "q2" 0 [] [] (by decide)⟩

/-- `str.find`: the first occurrence of `c` after a `c`-free segment
sits at that segment's length. -/
theorem findCharIdx_append_cons (c : Char) (l₁ l₂ : List Char) (h : c ∉ l₁) :
    findCharIdx c (l₁ ++ c :: l₂) = some l₁.length := by
  induction l₁ with
  | nil => simp [findCharIdx]
  | cons x xs ih =>
    rw [List.mem_cons, not_or] at h
    have hx : ¬ x = c := fun hc => h.1 hc.symm
    simp [findCharIdx, hx, ih h.2]

/-- C7 counterexample: the parsers do not extract the first balanced
`[...]` span — they slice from the first `[` to the last `]`.  For the
well-formed array `[1,2]` wrapped in prose, a `]` in the trailing prose
makes the slice unparsable, and even with no leading prose any trailing
prose at all defeats the whole-text parse; both runs return no parse
although the claim promises success. -/
theorem extract_and_parse_counterexample :
    parseIntArray "[1,2]" = some [1, 2] ∧
    extract_and_parse "ok [1,2] x]" = none ∧
    extract_and_parse "[1,2] thanks" = none := by
  decide

/-- C7 (amended): the classify/synthesize parsers parse the whole text
when it starts with `[`, and otherwise parse the slice from the first
`[` to the last `]`; this succeeds and returns the array's contents
whenever the leading prose is nonempty and contains no `[` and the
trailing prose contains no `]` (modelled on JSON arrays of integers). -/
theorem extract_and_parse_spec :
    (∀ (a : List Char) (xs : List Int), parseArrayChars a = some xs →
      a.head? = some '[' → extractParseChars a = some xs) ∧
    (∀ (p₁ amid p₂ : List Char) (xs : List Int),
      parseArrayChars ('[' :: amid ++ [']']) = some xs →
      p₁ ≠ [] → '[' ∉ p₁ → ']' ∉ p₂ →
      extractParseChars (p₁ ++ ('[' :: amid ++ [']']) ++ p₂) = some xs) := by
  constructor
  · intro a xs hparse hhead
    rw [extractParseChars, if_pos hhead]
    exact hparse
  · intro p₁ amid p₂ xs hparse hp1ne hp1 hp2
    have hhead : ¬ (p₁ ++ ('[' :: amid ++ [']']) ++ p₂).head? = some '[' := by
      cases p₁ with
      | nil => exact absurd rfl hp1ne
      | cons x xs₁ =>
        rw [List.mem_cons, not_or] at hp1
        simp only [List.cons_append, List.head?_cons, Option.some.injEq]
        exact fun hc => hp1.1 hc.symm
    have hfind : findCharIdx '[' (p₁ ++ ('[' :: amid ++ [']']) ++ p₂) =
        some p₁.length := by
      have he : p₁ ++ ('[' :: amid ++ [']']) ++ p₂ =
          p₁ ++ '[' :: (amid ++ [']'] ++ p₂) := by simp
      rw [he]
      exact findCharIdx_append_cons '[' p₁ _ hp1
    have hfind2 : findCharIdx ']' ((p₁ ++ ('[' :: amid ++ [']']) ++ p₂).reverse) =
        some p₂.reverse.length := by
      have he : (p₁ ++ ('[' :: amid ++ [']']) ++ p₂).reverse =
          p₂.reverse ++ ']' :: (amid.reverse ++ '[' :: p₁.reverse) := by
        simp
      rw [he]
      exact findCharIdx_append_cons ']' p₂.reverse _ (by simpa using hp2)
    have harith : (p₁ ++ ('[' :: amid ++ [']']) ++ p₂).length - 1 -
        p₂.reverse.length = p₁.length + amid.length + 1 := by
      simp only [List.length_append, List.length_cons, List.length_reverse,
        List.length_nil]
      omega
    have hrfind : rfindCharIdx ']' (p₁ ++ ('[' :: amid ++ [']']) ++ p₂) =
        some (p₁.length + amid.length + 1) := by
      rw [rfindCharIdx, hfind2]
      exact congrArg some harith
    rw [extractParseChars, if_neg hhead, hfind, hrfind]
    show (if p₁.length ≤ p₁.length + amid.length + 1 then
        parseArrayChars (((p₁ ++ ('[' :: amid ++ [']']) ++ p₂).drop
          p₁.length).take (p₁.length + amid.length + 1 + 1 - p₁.length))
      else none) = some xs
    rw [if_pos (by omega)]
    have hslice : ((p₁ ++ ('[' :: amid ++ [']']) ++ p₂).drop p₁.length).take
        (p₁.length + amid.length + 1 + 1 - p₁.length) = '[' :: amid ++ [']'] := by
      have h1 : p₁ ++ ('[' :: amid ++ [']']) ++ p₂ =
          p₁ ++ (('[' :: amid ++ [']']) ++ p₂) := by simp
      rw [h1, List.drop_left]
      have h2 : p₁.length + amid.length + 1 + 1 - p₁.length =
          ('[' :: amid ++ [']']).length := by
        simp only [List.length_cons, List.length_append, List.length_nil]
        omega
      rw [h2, List.take_left]
    rw [hslice]
    exact hparse

/-- Witness for C7: the prose-wrapped clause discharged at a concrete
response text. -/
theorem extract_and_parse_spec_witness :
    extractParseChars ("ok ".toList ++ ('[' :: "1, 2".toList ++ [']']) ++
      " thanks".toList) = some [1, 2] :=
  extract_and_parse_spec.2 "ok ".toList "1, 2".toList " thanks".toList [1, 2]
    (by decide) (by decide) (by decide) (by decide)

end BuildSignals
